import Mathlib

/-!
Verification of the boids steering/flock core.

The JavaScript source is embedded shallowly: IEEE floating point numbers are
modelled as real numbers, `Math.sqrt` as `Real.sqrt`, and `Math.atan2 y x` as
the argument of the complex number `x + y i` (`Complex.arg`), which like the
JS function has range `(-pi, pi]` and sends `(0, 0)` to `0`.  Mutation of a
boid is modelled by returning an updated copy; the flock's in-place array
update loop is modelled by an index fold over `List.set`.
-/

open Real

open scoped Classical

noncomputable section

/-- Embeds the `Vector` class.  The class stores its two coordinates in the
array `values`; `v0` and `v1` stand for `values[0]` and `values[1]`. -/
structure Vec where
  v0 : ℝ
  v1 : ℝ
deriving DecidableEq

namespace Vec

/-- Embeds `new Vector()`: both entries default to `0`. -/
def zero : Vec := ⟨0, 0⟩

/-- Embeds `Vector.add`. -/
def add (v w : Vec) : Vec := ⟨v.v0 + w.v0, v.v1 + w.v1⟩

/-- Embeds `Vector.subtract`. -/
def subtract (v w : Vec) : Vec := ⟨v.v0 - w.v0, v.v1 - w.v1⟩

/-- Embeds `Vector.length`: `Math.sqrt(Math.pow(values[0], 2) + Math.pow(values[1], 2))`. -/
def length (v : Vec) : ℝ := Real.sqrt (v.v0 ^ 2 + v.v1 ^ 2)

/-- Embeds `Vector.normalize`: divide by the magnitude unless it is `0`, in
which case return `new Vector()`. -/
def normalize (v : Vec) : Vec :=
  if v.length ≠ 0 then ⟨v.v0 / v.length, v.v1 / v.length⟩ else Vec.zero

/-- Embeds `Vector.scale`. -/
def scale (v : Vec) (s : ℝ) : Vec := ⟨v.v0 * s, v.v1 * s⟩

/-- Embeds `Vector.limit`: scale to magnitude `m` when the length exceeds `m`,
otherwise return a copy (`new Vector(this.values)`, equal as a value). -/
def limit (v : Vec) (m : ℝ) : Vec :=
  if v.length > m then (v.normalize).scale m else v

/-- Embeds `Vector.getX`, the accessor for `values[0]`. -/
def getX (v : Vec) : ℝ := v.v0

/-- Embeds `Vector.getY`, the accessor for `values[1]`. -/
def getY (v : Vec) : ℝ := v.v1

end Vec

/-- JavaScript values arising in `Boid.separation`, which reads the
nonexistent properties `boids[i].position.x` and `boids[i].position.y`
(a `Vector` keeps its coordinates in `values`; it has no `x` or `y` field,
so both reads yield `undefined`).  Arithmetic on `undefined` yields `NaN`,
and `NaN` propagates; every `<` comparison against `NaN` is false. -/
inductive JsNum where
  | num : ℝ → JsNum
  | nan : JsNum
  | undef : JsNum

namespace JsNum

/-- JS subtraction: `undefined` and `NaN` operands give `NaN`. -/
def sub : JsNum → JsNum → JsNum
  | num a, num b => num (a - b)
  | _, _ => nan

/-- JS `Math.pow(x, 2)`: `NaN` in, `NaN` out. -/
def pow2 : JsNum → JsNum
  | num a => num (a ^ 2)
  | _ => nan

/-- JS addition: `NaN` propagates. -/
def add : JsNum → JsNum → JsNum
  | num a, num b => num (a + b)
  | _, _ => nan

/-- JS `Math.sqrt`: `Math.sqrt(NaN)` is `NaN`. -/
def sqrt : JsNum → JsNum
  | num a => num (Real.sqrt a)
  | _ => nan

/-- The JS comparison `a < b` for a plain number `a` against a possibly
`NaN` value `b`: any comparison against `NaN` is false. -/
def lt (a : ℝ) : JsNum → Prop
  | num b => a < b
  | _ => False

end JsNum

/-- The JS property read `v.x` on a `Vector`: the field does not exist, so
the result is `undefined`. -/
def Vec.xProperty (_ : Vec) : JsNum := JsNum.undef

/-- The JS property read `v.y` on a `Vector`: the field does not exist, so
the result is `undefined`. -/
def Vec.yProperty (_ : Vec) : JsNum := JsNum.undef

/-- Embeds `Math.atan2 y x` as the argument of the complex number `x + y i`:
range `(-pi, pi]`, and `atan2 0 0 = 0` exactly as in JS. -/
def atan2 (y x : ℝ) : ℝ := Complex.arg ⟨x, y⟩

/-- Embeds the `vision` record of a `Boid`: the half-angle of the rear blind
cone and the perception radius. -/
structure Vision where
  angle : ℝ
  radius : ℝ
deriving DecidableEq

/-- Embeds the `weights` record of a `Boid`. -/
structure Weights where
  separation : ℝ
  cohesion : ℝ
  alignment : ℝ
  avoidance : ℝ
deriving DecidableEq

/-- Embeds the state of a `Boid` object: its constructor fields. -/
structure Boid where
  size : ℝ
  vision : Vision
  position : Vec
  velocity : Vec
  maxImpulse : ℝ
  pointImpulseCoeff : ℝ
  separationCoeff : ℝ
  pointImpulseLimit : ℝ
  weights : Weights
deriving DecidableEq

/-- The JS idiom `v || d` on numbers: `0` (and `undefined`) are falsy and
give the default `d`. -/
def jsOr (v d : ℝ) : ℝ := if v = 0 then d else v

/-- The JS idiom `v || d` where `v` may be a missing (`undefined`) argument. -/
def jsOrOpt : Option ℝ → ℝ → ℝ
  | none, d => d
  | some v, d => jsOr v d

namespace Boid

/-- Embeds the `Boid` constructor.  `size` and `speed` may be omitted
(`undefined`); the two `Math.random()` draws used for the initial velocity
are passed in as `r1` and `r2`, so `velocity = (r1 * 4 - 2, r2 * 4 - 2)`. -/
def create (startX startY : ℝ) (size speed : Option ℝ) (r1 r2 : ℝ) : Boid :=
  let sz := jsOrOpt size 15
  { size := sz
    vision := { angle := π / 4, radius := sz * 4 }
    position := ⟨jsOr startX 10, jsOr startY 10⟩
    velocity := ⟨r1 * 4 - 2, r2 * 4 - 2⟩
    maxImpulse := jsOrOpt speed 5
    pointImpulseCoeff := 15
    separationCoeff := 10
    pointImpulseLimit := 100
    weights := { separation := 1, cohesion := 1, alignment := 1.4, avoidance := 1.7 } }

/-- Embeds `Boid.distanceTo`. -/
def distanceTo (b : Boid) (x y : ℝ) : ℝ :=
  Real.sqrt ((x - b.position.getX) ^ 2 + (y - b.position.getY) ^ 2)

/-- Embeds `Boid.angleTo`: `Math.atan2(y - position.getY(), x - position.getX())`. -/
def angleTo (b : Boid) (x y : ℝ) : ℝ :=
  atan2 (y - b.position.getY) (x - b.position.getX)

/-- Embeds `Boid.distanceBetweenAngles`:
`Math.atan2(Math.sin(a - c), Math.cos(a - c))`. -/
def distanceBetweenAngles (_ : Boid) (a c : ℝ) : ℝ :=
  atan2 (Real.sin (a - c)) (Real.cos (a - c))

/-- Embeds `Boid.getDirection`: the angle to the point `position + velocity`. -/
def getDirection (b : Boid) : ℝ :=
  b.angleTo (b.position.getX + b.velocity.getX) (b.position.getY + b.velocity.getY)

/-- Embeds `Boid.canSee` as the proposition that the method returns `true`:
the target is within `vision.radius`, and the angular difference between the
bearing to the target and the (range-adjusted) heading is within the field of
view `pi - vision.angle`. -/
def canSee (b : Boid) (x y : ℝ) : Prop :=
  let direction := b.getDirection
  let distance := b.distanceTo x y
  distance ≤ b.vision.radius ∧
    (let relDirection := if direction > π then direction - 2 * π else direction
     let fov := π - b.vision.angle
     let targetAngle := b.angleTo x y
     |b.distanceBetweenAngles targetAngle relDirection| ≤ fov)

/-- Embeds `Boid.distanceTo` as called in `Boid.separation`, where its
arguments are the `undefined` property reads `position.x` / `position.y`:
all the arithmetic propagates to `NaN`. -/
def distanceToJs (b : Boid) (x y : JsNum) : JsNum :=
  (((x.sub (JsNum.num b.position.getX)).pow2).add
    ((y.sub (JsNum.num b.position.getY)).pow2)).sqrt

/-- Embeds `Boid.pointImpulse`. -/
def pointImpulse (b : Boid) (point : Vec) : Vec :=
  let diff := point.subtract b.position
  let dist := diff.length
  let impulse :=
    if dist < b.vision.radius / 2 then Vec.zero
    else if dist ≤ b.pointImpulseCoeff then
      (diff.normalize).scale (1 / (b.velocity.length * dist / b.pointImpulseCoeff))
    else (diff.normalize).scale b.velocity.length
  impulse.limit b.maxImpulse

/-- Embeds `Boid.separation`.  Object identity `boids[i] != this` is modelled
as value inequality.  Note that `distance` is the `NaN` produced by
`distanceTo(boids[i].position.x, boids[i].position.y)`, so the comparison
`sep < distance` is always false. -/
def separation (b : Boid) (boids : List Boid) : Vec :=
  let acc := boids.foldl (fun (acc : Vec × ℕ) o =>
    if o ≠ b ∧ b.canSee o.position.getX o.position.getY then
      let distance := b.distanceToJs o.position.xProperty o.position.yProperty
      let sep := b.size + o.size + 25 * b.separationCoeff
      if sep > 0 ∧ JsNum.lt sep distance then
        let diff := b.position.subtract o.position
        (acc.1.add ((diff.normalize).scale sep), acc.2 + 1)
      else acc
    else acc) (Vec.zero, 0)
  let sum :=
    if acc.2 > 0 then
      ((((acc.1.scale (1 / (acc.2 : ℝ))).normalize).scale b.velocity.length).subtract
        b.velocity)
    else acc.1
  sum.limit b.maxImpulse

/-- Embeds `Boid.alignment`. -/
def alignment (b : Boid) (boids : List Boid) : Vec :=
  let acc := boids.foldl (fun (acc : Vec × ℕ) o =>
    if o ≠ b ∧ b.canSee o.position.getX o.position.getY then
      (acc.1.add o.velocity, acc.2 + 1)
    else acc) (Vec.zero, 0)
  if acc.2 > 0 then
    ((((acc.1.scale (1 / (acc.2 : ℝ))).normalize).scale b.velocity.length).subtract
      b.velocity).limit b.maxImpulse
  else Vec.zero

/-- Embeds `Boid.cohesion`.  In the source the statement `sum.scale(1 / count)`
discards its result (`Vector.scale` returns a new vector and never mutates its
receiver), so the point impulse is taken at the coordinate-wise sum of the
visible neighbors' positions, not at their average. -/
def cohesion (b : Boid) (boids : List Boid) : Vec :=
  let acc := boids.foldl (fun (acc : Vec × ℕ) o =>
    if o ≠ b ∧ b.canSee o.position.getX o.position.getY then
      (acc.1.add o.position, acc.2 + 1)
    else acc) (Vec.zero, 0)
  if acc.2 > 0 then b.pointImpulse acc.1
  else acc.1

/-- Embeds `Boid.wallAvoidance`: `none` models the `false` return value
(no wall visible, rule not triggered). -/
def wallAvoidance (b : Boid) (width height : ℝ) : Option Vec :=
  let x := b.position.getX
  let y := b.position.getY
  if b.canSee 0 y ∨ b.canSee x 0 ∨ b.canSee width y ∨ b.canSee x height then
    some (b.pointImpulse ⟨width / 2, height / 2⟩)
  else none

/-- Embeds `Boid.wallCollision`. -/
def wallCollision (b : Boid) (width height : ℝ) : Prop :=
  0 > b.position.getX ∨ 0 > b.position.getY ∨
    b.position.getX > width ∨ b.position.getY > height

/-- Embeds `Boid.applyImpulse`: add the weighted impulse to the velocity and
clamp the magnitude to `maxImpulse`. -/
def applyImpulse (b : Boid) (impulse : Vec) (weight : ℝ) : Boid :=
  { b with velocity := (b.velocity.add (impulse.scale weight)).limit b.maxImpulse }

/-- Embeds `Boid.applyRules`: compute the four rule vectors from the current
state, then apply them to the velocity in order, skipping avoidance when
`wallAvoidance` returned `false`. -/
def applyRules (b : Boid) (boids : List Boid) (width height : ℝ) : Boid :=
  let sep := b.separation boids
  let align := b.alignment boids
  let coh := b.cohesion boids
  let avoidWalls := b.wallAvoidance width height
  let b1 := b.applyImpulse sep b.weights.separation
  let b2 := b1.applyImpulse align b1.weights.alignment
  let b3 := b2.applyImpulse coh b2.weights.cohesion
  match avoidWalls with
  | some v => b3.applyImpulse v b3.weights.avoidance
  | none => b3

/-- Embeds `Boid.move`: `position += velocity`. -/
def move (b : Boid) : Boid :=
  { b with position := b.position.add b.velocity }

end Boid

namespace Flock

/-- One iteration of the decide loop of `Flock.moveFlock`: boid `i` of the
array recomputes its velocity from the array as it currently stands (boids
before index `i` have already been updated in place). -/
def decideStep (width height : ℝ) (l : List Boid) (i : ℕ) : List Boid :=
  match l[i]? with
  | some b => l.set i (b.applyRules l width height)
  | none => l

/-- The first loop of `Flock.moveFlock`: every boid updates its velocity,
in array order, each seeing the in-place updates made by earlier boids. -/
def decidePhase (width height : ℝ) (l : List Boid) : List Boid :=
  (List.range l.length).foldl (decideStep width height) l

/-- Embeds `Flock.moveFlock`: the decide loop followed by the move loop. -/
def moveFlock (l : List Boid) (width height : ℝ) : List Boid :=
  (decidePhase width height l).map Boid.move

/-- Embeds the boid built by `Flock.addRandomBoid`:
`new Boid(Math.random() * width, Math.random() * height, height * 0.03)`, with
the four `Math.random()` draws passed in (`r1`, `r2` for the position and
`r3`, `r4` for the constructor's velocity draws). -/
def randomBoid (width height r1 r2 r3 r4 : ℝ) : Boid :=
  Boid.create (r1 * width) (r2 * height) (some (height * 0.03)) none r3 r4

/-- Embeds `Flock.addRandomBoid`'s effect on the boid array: push the new
randomly placed boid. -/
def addRandomBoid (boids : List Boid) (width height r1 r2 r3 r4 : ℝ) : List Boid :=
  boids ++ [randomBoid width height r1 r2 r3 r4]

end Flock

/-- A boid with the constructor's default tunables (size 15, vision radius 60,
blind half-angle pi/4, maxImpulse 5) at a given position and velocity; used to
instantiate the claims at concrete states. -/
def stdBoid (px py vx vy : ℝ) : Boid :=
  { size := 15
    vision := { angle := π / 4, radius := 60 }
    position := ⟨px, py⟩
    velocity := ⟨vx, vy⟩
    maxImpulse := 5
    pointImpulseCoeff := 15
    separationCoeff := 10
    pointImpulseLimit := 100
    weights := { separation := 1, cohesion := 1, alignment := 1.4, avoidance := 1.7 } }

/-- The cohesion rule as the specification words it: average the positions of
the visible neighbors and steer toward that average point (zero impulse when
none are visible).  Stated for comparison with `Boid.cohesion`. -/
def Boid.cohesionSpec (b : Boid) (boids : List Boid) : Vec :=
  let acc := boids.foldl (fun (acc : Vec × ℕ) o =>
    if o ≠ b ∧ b.canSee o.position.getX o.position.getY then
      (acc.1.add o.position, acc.2 + 1)
    else acc) (Vec.zero, 0)
  if acc.2 > 0 then b.pointImpulse (acc.1.scale (1 / (acc.2 : ℝ)))
  else acc.1

end

theorem Vec.length_mk (a b : ℝ) : Vec.length ⟨a, b⟩ = Real.sqrt (a ^ 2 + b ^ 2) := rfl

theorem Vec.length_nonneg (v : Vec) : 0 ≤ v.length := Real.sqrt_nonneg _

theorem Vec.length_eval {a b c : ℝ} (hc : 0 ≤ c) (h : c ^ 2 = a ^ 2 + b ^ 2) :
    Vec.length ⟨a, b⟩ = c := by
  rw [Vec.length_mk, ← h, Real.sqrt_sq hc]

theorem Vec.length_zero : Vec.zero.length = 0 := by
  simp [Vec.zero, Vec.length]

theorem Vec.length_scale (v : Vec) (s : ℝ) : (v.scale s).length = |s| * v.length := by
  unfold Vec.length Vec.scale
  rw [show (v.v0 * s) ^ 2 + (v.v1 * s) ^ 2 = s ^ 2 * (v.v0 ^ 2 + v.v1 ^ 2) by ring,
    Real.sqrt_mul (sq_nonneg s), Real.sqrt_sq_eq_abs]

theorem Vec.zero_scale (s : ℝ) : Vec.zero.scale s = Vec.zero := by
  simp [Vec.zero, Vec.scale]

theorem Vec.add_zero_vec (v : Vec) : v.add Vec.zero = v := by
  cases v
  simp [Vec.add, Vec.zero]

theorem Vec.scale_one (v : Vec) : v.scale 1 = v := by
  cases v
  simp [Vec.scale]

theorem Vec.normalize_zero : Vec.zero.normalize = Vec.zero := by
  simp [Vec.normalize, Vec.length_zero]

theorem Vec.normalize_of_ne {v : Vec} (h : v.length ≠ 0) :
    v.normalize = ⟨v.v0 / v.length, v.v1 / v.length⟩ := by
  simp [Vec.normalize, h]

theorem Vec.sq_length (v : Vec) : v.length ^ 2 = v.v0 ^ 2 + v.v1 ^ 2 :=
  Real.sq_sqrt (by positivity)

theorem Vec.length_normalize {v : Vec} (h : v.length ≠ 0) : v.normalize.length = 1 := by
  have hpos : 0 < v.length := lt_of_le_of_ne (Vec.length_nonneg v) (Ne.symm h)
  rw [Vec.normalize_of_ne h, Vec.length_mk]
  have hq : (v.v0 / v.length) ^ 2 + (v.v1 / v.length) ^ 2 = 1 := by
    have hsq := v.sq_length
    field_simp
    linarith
  rw [hq, Real.sqrt_one]

theorem Vec.limit_of_le {v : Vec} {m : ℝ} (h : v.length ≤ m) : v.limit m = v := by
  unfold Vec.limit
  rw [if_neg (not_lt.2 h)]

theorem Vec.length_limit {v : Vec} (m : ℝ) (hm : 0 ≤ m) : (v.limit m).length ≤ m := by
  unfold Vec.limit
  split
  · next hgt =>
      have hne : v.length ≠ 0 := (lt_of_le_of_lt hm hgt).ne'
      rw [Vec.length_scale, Vec.length_normalize hne, mul_one, abs_of_nonneg hm]
  · next hle => exact not_lt.1 hle

theorem Vec.limit_idem {v : Vec} {m : ℝ} (hm : 0 ≤ m) : (v.limit m).limit m = v.limit m :=
  Vec.limit_of_le (Vec.length_limit m hm)

theorem Vec.zero_limit (m : ℝ) : Vec.zero.limit m = Vec.zero := by
  unfold Vec.limit
  split
  · rw [Vec.normalize_zero, Vec.zero_scale]
  · rfl

theorem Vec.limit_eq_scale {v : Vec} {m : ℝ} (hm : 0 ≤ m) :
    ∃ c : ℝ, 0 ≤ c ∧ v.limit m = v.scale c := by
  unfold Vec.limit
  split
  · next hgt =>
      have hne : v.length ≠ 0 := (lt_of_le_of_lt hm hgt).ne'
      refine ⟨m / v.length, div_nonneg hm (Vec.length_nonneg v), ?_⟩
      rw [Vec.normalize_of_ne hne]
      simp only [Vec.scale, Vec.mk.injEq]
      constructor <;> ring
  · exact ⟨1, zero_le_one, (v.scale_one).symm⟩

theorem atan2_zero_of_nonneg {x : ℝ} (h : 0 ≤ x) : atan2 0 x = 0 := by
  have hx : (⟨x, 0⟩ : ℂ) = (x : ℂ) := by
    apply Complex.ext <;> simp
  rw [atan2, hx, Complex.arg_ofReal_of_nonneg h]

theorem atan2_zero_of_neg {x : ℝ} (h : x < 0) : atan2 0 x = π := by
  have hx : (⟨x, 0⟩ : ℂ) = (x : ℂ) := by
    apply Complex.ext <;> simp
  rw [atan2, hx, Complex.arg_ofReal_of_neg h]

theorem atan2_le_pi (y x : ℝ) : atan2 y x ≤ π := Complex.arg_le_pi _

theorem neg_pi_lt_atan2 (y x : ℝ) : -π < atan2 y x := Complex.neg_pi_lt_arg _

theorem atan2_sin_cos {θ : ℝ} (h : θ ∈ Set.Ioc (-π) π) :
    atan2 (Real.sin θ) (Real.cos θ) = θ := by
  rw [atan2, Complex.mk_eq_add_mul_I, Complex.ofReal_cos, Complex.ofReal_sin]
  exact Complex.arg_cos_add_sin_mul_I h

theorem Boid.getDirection_eq (b : Boid) :
    b.getDirection = atan2 b.velocity.getY b.velocity.getX := by
  unfold Boid.getDirection Boid.angleTo
  rw [add_sub_cancel_left, add_sub_cancel_left]

theorem Boid.getDirection_le_pi (b : Boid) : b.getDirection ≤ π := by
  rw [b.getDirection_eq]
  exact atan2_le_pi _ _

theorem Boid.canSee_iff (b : Boid) (x y : ℝ) :
    b.canSee x y ↔
      b.distanceTo x y ≤ b.vision.radius ∧
        |b.distanceBetweenAngles (b.angleTo x y) b.getDirection| ≤ π - b.vision.angle := by
  show (b.distanceTo x y ≤ b.vision.radius ∧
      |b.distanceBetweenAngles (b.angleTo x y)
        (if b.getDirection > π then b.getDirection - 2 * π else b.getDirection)| ≤
        π - b.vision.angle) ↔ _
  rw [if_neg (not_lt.2 b.getDirection_le_pi)]

theorem Boid.not_canSee_of_far {b : Boid} {x y : ℝ}
    (h : b.vision.radius < b.distanceTo x y) : ¬ b.canSee x y := fun hc =>
  absurd ((b.canSee_iff x y).1 hc).1 (not_le.2 h)

theorem Boid.distanceTo_self (b : Boid) :
    b.distanceTo b.position.getX b.position.getY = 0 := by
  simp [Boid.distanceTo]

theorem Boid.distanceBetweenAngles_self (b : Boid) (a : ℝ) :
    b.distanceBetweenAngles a a = 0 := by
  unfold Boid.distanceBetweenAngles
  rw [sub_self, Real.sin_zero, Real.cos_zero]
  exact atan2_zero_of_nonneg zero_le_one

theorem Boid.abs_distanceBetweenAngles_zero {b : Boid} {d : ℝ}
    (hd : d ∈ Set.Ioc (-π) π) : |b.distanceBetweenAngles 0 d| = |d| := by
  unfold Boid.distanceBetweenAngles
  rw [zero_sub]
  rcases eq_or_lt_of_le hd.2 with hdeq | hdlt
  · rw [hdeq, Real.sin_neg, Real.cos_neg, Real.sin_pi, Real.cos_pi, neg_zero,
      atan2_zero_of_neg (by norm_num)]
  · rw [atan2_sin_cos ⟨by linarith, by linarith [hd.1]⟩, abs_neg]

theorem foldl_id {α : Type _} {β : Type _} (f : β → α → β) (l : List α) (init : β)
    (h : ∀ acc : β, ∀ o ∈ l, f acc o = acc) : l.foldl f init = init := by
  induction l generalizing init with
  | nil => rfl
  | cons o rest ih =>
      rw [List.foldl_cons, h init o (by simp)]
      exact ih init (fun acc o' ho' => h acc o' (by simp [ho']))

theorem Boid.applyImpulse_velocity (b : Boid) (i : Vec) (w : ℝ) :
    (b.applyImpulse i w).velocity = (b.velocity.add (i.scale w)).limit b.maxImpulse := rfl

theorem Boid.applyImpulse_position (b : Boid) (i : Vec) (w : ℝ) :
    (b.applyImpulse i w).position = b.position := rfl

theorem Boid.applyImpulse_maxImpulse (b : Boid) (i : Vec) (w : ℝ) :
    (b.applyImpulse i w).maxImpulse = b.maxImpulse := rfl

theorem Boid.applyImpulse_length_le (b : Boid) (i : Vec) (w : ℝ)
    (hm : 0 ≤ b.maxImpulse) :
    ((b.applyImpulse i w).velocity).length ≤ b.maxImpulse :=
  Vec.length_limit _ hm

theorem Boid.applyImpulse_zero (b : Boid) (w : ℝ) :
    b.applyImpulse Vec.zero w = { b with velocity := b.velocity.limit b.maxImpulse } := by
  unfold Boid.applyImpulse
  rw [Vec.zero_scale, Vec.add_zero_vec]

theorem Boid.applyRules_position (b : Boid) (boids : List Boid) (w h : ℝ) :
    (b.applyRules boids w h).position = b.position := by
  cases hav : b.wallAvoidance w h <;>
    simp [Boid.applyRules, hav, Boid.applyImpulse_position]

theorem Boid.applyRules_maxImpulse (b : Boid) (boids : List Boid) (w h : ℝ) :
    (b.applyRules boids w h).maxImpulse = b.maxImpulse := by
  cases hav : b.wallAvoidance w h <;>
    simp [Boid.applyRules, hav, Boid.applyImpulse_maxImpulse]

theorem Boid.applyRules_length_le (b : Boid) (boids : List Boid) (w h : ℝ)
    (hm : 0 ≤ b.maxImpulse) :
    ((b.applyRules boids w h).velocity).length ≤ b.maxImpulse := by
  cases hav : b.wallAvoidance w h
  · simp only [Boid.applyRules, hav]
    exact Vec.length_limit _ hm
  · simp only [Boid.applyRules, hav]
    exact Vec.length_limit _ hm

theorem Boid.move_velocity (b : Boid) : b.move.velocity = b.velocity := rfl

theorem Boid.move_maxImpulse (b : Boid) : b.move.maxImpulse = b.maxImpulse := rfl

theorem Boid.separation_of_none (b : Boid) (boids : List Boid)
    (h : ∀ o ∈ boids, o ≠ b → ¬ b.canSee o.position.getX o.position.getY) :
    b.separation boids = Vec.zero := by
  unfold Boid.separation
  rw [foldl_id _ _ _ ?_]
  · exact Vec.zero_limit _
  · intro acc o ho
    rw [if_neg]
    rintro ⟨hne, hsee⟩
    exact h o ho hne hsee

theorem Boid.alignment_of_none (b : Boid) (boids : List Boid)
    (h : ∀ o ∈ boids, o ≠ b → ¬ b.canSee o.position.getX o.position.getY) :
    b.alignment boids = Vec.zero := by
  unfold Boid.alignment
  rw [foldl_id _ _ _ ?_]
  · rfl
  · intro acc o ho
    rw [if_neg]
    rintro ⟨hne, hsee⟩
    exact h o ho hne hsee

theorem Boid.cohesion_of_none (b : Boid) (boids : List Boid)
    (h : ∀ o ∈ boids, o ≠ b → ¬ b.canSee o.position.getX o.position.getY) :
    b.cohesion boids = Vec.zero := by
  unfold Boid.cohesion
  rw [foldl_id _ _ _ ?_]
  · rfl
  · intro acc o ho
    rw [if_neg]
    rintro ⟨hne, hsee⟩
    exact h o ho hne hsee

theorem Boid.applyRules_no_stimulus (b : Boid) (boids : List Boid) (w h : ℝ)
    (hnb : ∀ o ∈ boids, o ≠ b → ¬ b.canSee o.position.getX o.position.getY)
    (hwall : b.wallAvoidance w h = none) (hm : 0 ≤ b.maxImpulse) :
    (b.applyRules boids w h).velocity = b.velocity.limit b.maxImpulse := by
  simp only [Boid.applyRules, Boid.separation_of_none b boids hnb,
    Boid.alignment_of_none b boids hnb, Boid.cohesion_of_none b boids hnb, hwall,
    Boid.applyImpulse_zero]
  simp [Vec.limit_idem hm]

theorem Flock.decideStep_length (w h : ℝ) (l : List Boid) (i : ℕ) :
    (Flock.decideStep w h l i).length = l.length := by
  unfold Flock.decideStep
  split <;> simp

theorem Flock.foldl_decideStep_length (w h : ℝ) (idxs : List ℕ) (l : List Boid) :
    (idxs.foldl (Flock.decideStep w h) l).length = l.length := by
  induction idxs generalizing l with
  | nil => rfl
  | cons i rest ih => rw [List.foldl_cons, ih, Flock.decideStep_length]

theorem Flock.decidePhase_length (w h : ℝ) (l : List Boid) :
    (Flock.decidePhase w h l).length = l.length :=
  Flock.foldl_decideStep_length w h _ l

theorem Flock.decideStep_nonneg (w h : ℝ) (l : List Boid) (i : ℕ)
    (hS : ∀ b ∈ l, 0 ≤ b.maxImpulse) :
    ∀ b ∈ Flock.decideStep w h l i, 0 ≤ b.maxImpulse := by
  unfold Flock.decideStep
  split
  · next b hb =>
      intro c hc
      rcases List.mem_or_eq_of_mem_set hc with hmem | rfl
      · exact hS c hmem
      · rw [Boid.applyRules_maxImpulse]
        rcases List.getElem?_eq_some.1 hb with ⟨hlt, hEq⟩
        exact hS b (hEq ▸ List.getElem_mem hlt)
  · exact hS

theorem Flock.foldl_decideStep_nonneg (w h : ℝ) (idxs : List ℕ) (l : List Boid)
    (hS : ∀ b ∈ l, 0 ≤ b.maxImpulse) :
    ∀ b ∈ idxs.foldl (Flock.decideStep w h) l, 0 ≤ b.maxImpulse := by
  induction idxs generalizing l with
  | nil => exact hS
  | cons i rest ih =>
      rw [List.foldl_cons]
      exact ih _ (Flock.decideStep_nonneg w h l i hS)

theorem Flock.decideStep_bound_self (w h : ℝ) (l : List Boid) (i : ℕ)
    (hS : ∀ b ∈ l, 0 ≤ b.maxImpulse) (hi : i < l.length) :
    ∀ c, (Flock.decideStep w h l i)[i]? = some c →
      c.velocity.length ≤ c.maxImpulse := by
  intro c hc
  unfold Flock.decideStep at hc
  split at hc
  · next b hb =>
      rw [List.getElem?_set, if_pos rfl, if_pos hi, Option.some.injEq] at hc
      subst hc
      rcases List.getElem?_eq_some.1 hb with ⟨hlt, hEq⟩
      have hmem : b ∈ l := hEq ▸ List.getElem_mem hlt
      rw [Boid.applyRules_maxImpulse]
      exact Boid.applyRules_length_le b l w h (hS b hmem)
  · next hb => exact absurd hb (by simp [hi])

theorem Flock.decideStep_bound_preserved (w h : ℝ) (l : List Boid) (i j : ℕ)
    (hS : ∀ b ∈ l, 0 ≤ b.maxImpulse)
    (hB : ∀ c, l[j]? = some c → c.velocity.length ≤ c.maxImpulse) :
    ∀ c, (Flock.decideStep w h l i)[j]? = some c →
      c.velocity.length ≤ c.maxImpulse := by
  rcases eq_or_ne i j with rfl | hne
  · by_cases hi : i < l.length
    · exact Flock.decideStep_bound_self w h l i hS hi
    · intro c hc
      unfold Flock.decideStep at hc
      split at hc
      · next b hb =>
          rcases List.getElem?_eq_some.1 hb with ⟨hlt, _⟩
          exact absurd hlt hi
      · exact hB c hc
  · intro c hc
    unfold Flock.decideStep at hc
    split at hc
    · next b hb =>
        rw [List.getElem?_set, if_neg hne] at hc
        exact hB c hc
    · exact hB c hc

theorem Flock.foldl_bound_preserved (w h : ℝ) (j : ℕ) (idxs : List ℕ)
    (l : List Boid) (hS : ∀ b ∈ l, 0 ≤ b.maxImpulse)
    (hB : ∀ c, l[j]? = some c → c.velocity.length ≤ c.maxImpulse) :
    ∀ c, (idxs.foldl (Flock.decideStep w h) l)[j]? = some c →
      c.velocity.length ≤ c.maxImpulse := by
  induction idxs generalizing l with
  | nil => exact hB
  | cons i rest ih =>
      rw [List.foldl_cons]
      exact ih _ (Flock.decideStep_nonneg w h l i hS)
        (Flock.decideStep_bound_preserved w h l i j hS hB)

theorem Flock.foldl_bound (w h : ℝ) (j : ℕ) (idxs : List ℕ) (l : List Boid)
    (hS : ∀ b ∈ l, 0 ≤ b.maxImpulse) (hj : j ∈ idxs) (hlt : j < l.length) :
    ∀ c, (idxs.foldl (Flock.decideStep w h) l)[j]? = some c →
      c.velocity.length ≤ c.maxImpulse := by
  induction idxs generalizing l with
  | nil => exact absurd hj (List.not_mem_nil j)
  | cons i rest ih =>
      rw [List.foldl_cons]
      by_cases hjr : j ∈ rest
      · exact ih _ (Flock.decideStep_nonneg w h l i hS) hjr
          (by rw [Flock.decideStep_length]; exact hlt)
      · have hji : j = i := by
          rcases List.mem_cons.1 hj with hji | hji
          · exact hji
          · exact absurd hji hjr
        subst hji
        exact Flock.foldl_bound_preserved w h j rest _
          (Flock.decideStep_nonneg w h l j hS)
          (Flock.decideStep_bound_self w h l j hS hlt)

theorem Flock.decidePhase_bound (w h : ℝ) (l : List Boid)
    (hS : ∀ b ∈ l, 0 ≤ b.maxImpulse) :
    ∀ c ∈ Flock.decidePhase w h l, c.velocity.length ≤ c.maxImpulse := by
  intro c hc
  rcases List.mem_iff_getElem?.1 hc with ⟨j, hj⟩
  have hjlt : j < l.length := by
    rcases List.getElem?_eq_some.1 hj with ⟨hlt, _⟩
    rw [Flock.decidePhase_length] at hlt
    exact hlt
  exact Flock.foldl_bound w h j (List.range l.length) l hS
    (List.mem_range.2 hjlt) hjlt c hj

theorem Flock.decideStep_map_position (w h : ℝ) (l : List Boid) (i : ℕ) :
    (Flock.decideStep w h l i).map Boid.position = l.map Boid.position := by
  unfold Flock.decideStep
  split
  · next b hb =>
      rw [List.map_set, Boid.applyRules_position]
      apply List.ext_getElem?
      intro n
      rw [List.getElem?_set]
      split
      · next hin =>
          subst hin
          rcases List.getElem?_eq_some.1 hb with ⟨hlt, hEq⟩
          rw [if_pos (by simpa using hlt), List.getElem?_map, hb]
          rfl
      · rfl
  · rfl

theorem Flock.foldl_map_position (w h : ℝ) (idxs : List ℕ) (l : List Boid) :
    (idxs.foldl (Flock.decideStep w h) l).map Boid.position = l.map Boid.position := by
  induction idxs generalizing l with
  | nil => rfl
  | cons i rest ih => rw [List.foldl_cons, ih, Flock.decideStep_map_position]

theorem Flock.decidePhase_map_position (w h : ℝ) (l : List Boid) :
    (Flock.decidePhase w h l).map Boid.position = l.map Boid.position :=
  Flock.foldl_map_position w h _ l

theorem sqrt_num {a c : ℝ} (hc : 0 ≤ c) (h : c ^ 2 = a) : Real.sqrt a = c := by
  rw [← h, Real.sqrt_sq hc]

theorem Boid.distanceTo_eval {b : Boid} {x y c : ℝ} (hc : 0 ≤ c)
    (h : c ^ 2 = (x - b.position.getX) ^ 2 + (y - b.position.getY) ^ 2) :
    b.distanceTo x y = c := by
  unfold Boid.distanceTo
  exact sqrt_num hc h

theorem Boid.canSee_of {b : Boid} {x y : ℝ}
    (h1 : b.distanceTo x y ≤ b.vision.radius)
    (h2 : |b.distanceBetweenAngles (b.angleTo x y) b.getDirection| ≤ π - b.vision.angle) :
    b.canSee x y := (b.canSee_iff x y).2 ⟨h1, h2⟩

theorem stdBoid_position (px py vx vy : ℝ) : (stdBoid px py vx vy).position = ⟨px, py⟩ := rfl

theorem stdBoid_velocity (px py vx vy : ℝ) : (stdBoid px py vx vy).velocity = ⟨vx, vy⟩ := rfl

theorem stdBoid_radius (px py vx vy : ℝ) : (stdBoid px py vx vy).vision.radius = 60 := rfl

theorem stdBoid_angle (px py vx vy : ℝ) : (stdBoid px py vx vy).vision.angle = π / 4 := rfl

theorem stdBoid_maxImpulse (px py vx vy : ℝ) : (stdBoid px py vx vy).maxImpulse = 5 := rfl

theorem stdBoid_getDirection (px py vx vy : ℝ) :
    (stdBoid px py vx vy).getDirection = atan2 vy vx := by
  rw [Boid.getDirection_eq]
  rfl

theorem stdBoid_angleTo (px py vx vy x y : ℝ) :
    (stdBoid px py vx vy).angleTo x y = atan2 (y - py) (x - px) := rfl

theorem fov_nonneg : (0 : ℝ) ≤ π - π / 4 := by linarith [Real.pi_pos]

theorem stdBoid_east_sees {t : ℝ} (h0 : 0 ≤ t) (h60 : t ≤ 60) :
    (stdBoid 0 0 1 0).canSee t 0 := by
  apply Boid.canSee_of
  · rw [Boid.distanceTo_eval h0 (by norm_num [stdBoid_position, Vec.getX, Vec.getY]),
      stdBoid_radius]
    exact h60
  · rw [stdBoid_angleTo, stdBoid_getDirection, show (0 : ℝ) - 0 = 0 by norm_num,
      show t - 0 = t by ring, atan2_zero_of_nonneg h0, atan2_zero_of_nonneg zero_le_one,
      Boid.distanceBetweenAngles_self, abs_zero, stdBoid_angle]
    exact fov_nonneg

theorem c2_sees_wall : (stdBoid 50 500 (-2) 0).canSee 0 500 := by
  apply Boid.canSee_of
  · rw [Boid.distanceTo_eval (show (0:ℝ) ≤ 50 by norm_num)
      (by norm_num [stdBoid_position, Vec.getX, Vec.getY]), stdBoid_radius]
    norm_num
  · rw [stdBoid_angleTo, stdBoid_getDirection, show (500 : ℝ) - 500 = 0 by norm_num,
      atan2_zero_of_neg (show (0:ℝ) - 50 < 0 by norm_num),
      atan2_zero_of_neg (show (-2:ℝ) < 0 by norm_num),
      Boid.distanceBetweenAngles_self, abs_zero, stdBoid_angle]
    exact fov_nonneg

theorem lonely_no_wall : (stdBoid 500 500 1 0).wallAvoidance 1000 1000 = none := by
  simp only [Boid.wallAvoidance, stdBoid_position, Vec.getX, Vec.getY]
  rw [if_neg]
  have d1 : ¬ (stdBoid 500 500 1 0).canSee 0 500 :=
    Boid.not_canSee_of_far (by
      rw [Boid.distanceTo_eval (show (0:ℝ) ≤ 500 by norm_num)
        (by norm_num [stdBoid_position, Vec.getX, Vec.getY]), stdBoid_radius]
      norm_num)
  have d2 : ¬ (stdBoid 500 500 1 0).canSee 500 0 :=
    Boid.not_canSee_of_far (by
      rw [Boid.distanceTo_eval (show (0:ℝ) ≤ 500 by norm_num)
        (by norm_num [stdBoid_position, Vec.getX, Vec.getY]), stdBoid_radius]
      norm_num)
  have d3 : ¬ (stdBoid 500 500 1 0).canSee 1000 500 :=
    Boid.not_canSee_of_far (by
      rw [Boid.distanceTo_eval (show (0:ℝ) ≤ 500 by norm_num)
        (by norm_num [stdBoid_position, Vec.getX, Vec.getY]), stdBoid_radius]
      norm_num)
  have d4 : ¬ (stdBoid 500 500 1 0).canSee 500 1000 :=
    Boid.not_canSee_of_far (by
      rw [Boid.distanceTo_eval (show (0:ℝ) ≤ 500 by norm_num)
        (by norm_num [stdBoid_position, Vec.getX, Vec.getY]), stdBoid_radius]
      norm_num)
  rintro (h | h | h | h)
  · exact d1 h
  · exact d2 h
  · exact d3 h
  · exact d4 h

theorem stdBoid_size (px py vx vy : ℝ) : (stdBoid px py vx vy).size = 15 := rfl

theorem stdBoid_separationCoeff (px py vx vy : ℝ) :
    (stdBoid px py vx vy).separationCoeff = 10 := rfl

theorem stdBoid_pointImpulseCoeff (px py vx vy : ℝ) :
    (stdBoid px py vx vy).pointImpulseCoeff = 15 := rfl

theorem stdBoid_weights (px py vx vy : ℝ) :
    (stdBoid px py vx vy).weights = ⟨1, 1, 1.4, 1.7⟩ := rfl

theorem Boid.pointImpulse_eval_near (b : Boid) (p : Vec)
    (h : (p.subtract b.position).length < b.vision.radius / 2) :
    b.pointImpulse p = Vec.zero := by
  simp only [Boid.pointImpulse]
  rw [if_pos h, Vec.zero_limit]

theorem Boid.pointImpulse_eval_far (b : Boid) (p : Vec)
    (h1 : ¬ ((p.subtract b.position).length < b.vision.radius / 2))
    (h2 : ¬ ((p.subtract b.position).length ≤ b.pointImpulseCoeff)) :
    b.pointImpulse p =
      (((p.subtract b.position).normalize).scale b.velocity.length).limit b.maxImpulse := by
  simp only [Boid.pointImpulse]
  rw [if_neg h1, if_neg h2]

theorem Vec.normalize_axis {a : ℝ} (ha : 0 < a) : Vec.normalize ⟨a, 0⟩ = ⟨1, 0⟩ := by
  have hl : Vec.length ⟨a, 0⟩ = a := Vec.length_eval ha.le (by ring)
  rw [Vec.normalize_of_ne (by rw [hl]; exact ha.ne')]
  rw [show (⟨a, 0⟩ : Vec).v0 = a from rfl, show (⟨a, 0⟩ : Vec).v1 = 0 from rfl, hl]
  rw [div_self ha.ne', zero_div]

theorem c2_pointImpulse_center :
    (stdBoid 50 500 (-2) 0).pointImpulse ⟨500, 500⟩ = ⟨2, 0⟩ := by
  have hdiff : Vec.subtract ⟨500, 500⟩ (stdBoid 50 500 (-2) 0).position = ⟨450, 0⟩ := by
    rw [stdBoid_position]
    simp only [Vec.subtract, Vec.mk.injEq]
    norm_num
  have hlen : Vec.length ⟨(450 : ℝ), 0⟩ = 450 := Vec.length_eval (by norm_num) (by norm_num)
  rw [Boid.pointImpulse_eval_far _ _
      (by rw [hdiff, hlen, stdBoid_radius]; norm_num)
      (by rw [hdiff, hlen, stdBoid_pointImpulseCoeff]; norm_num),
    hdiff, Vec.normalize_axis (by norm_num : (0:ℝ) < 450)]
  have hv : (stdBoid 50 500 (-2) 0).velocity.length = 2 := by
    rw [stdBoid_velocity]
    exact Vec.length_eval (by norm_num) (by norm_num)
  rw [hv, stdBoid_maxImpulse, show Vec.scale ⟨1, 0⟩ 2 = ⟨2, 0⟩ from by
    simp only [Vec.scale, Vec.mk.injEq]; norm_num]
  exact Vec.limit_of_le (by
    rw [Vec.length_eval (show (0:ℝ) ≤ 2 by norm_num) (by norm_num)]
    norm_num)

theorem c5_pointImpulse_sum :
    (stdBoid 0 0 1 0).pointImpulse ⟨44, 0⟩ = ⟨1, 0⟩ := by
  have hdiff : Vec.subtract ⟨44, 0⟩ (stdBoid 0 0 1 0).position = ⟨44, 0⟩ := by
    rw [stdBoid_position]
    simp only [Vec.subtract, Vec.mk.injEq]
    norm_num
  have hlen : Vec.length ⟨(44 : ℝ), 0⟩ = 44 := Vec.length_eval (by norm_num) (by norm_num)
  rw [Boid.pointImpulse_eval_far _ _
      (by rw [hdiff, hlen, stdBoid_radius]; norm_num)
      (by rw [hdiff, hlen, stdBoid_pointImpulseCoeff]; norm_num),
    hdiff, Vec.normalize_axis (by norm_num : (0:ℝ) < 44)]
  have hv : (stdBoid 0 0 1 0).velocity.length = 1 := by
    rw [stdBoid_velocity]
    exact Vec.length_eval zero_le_one (by norm_num)
  rw [hv, stdBoid_maxImpulse, Vec.scale_one]
  exact Vec.limit_of_le (by
    rw [Vec.length_eval zero_le_one (by norm_num)]
    norm_num)

theorem c5_pointImpulse_mean :
    (stdBoid 0 0 1 0).pointImpulse ⟨22, 0⟩ = Vec.zero := by
  apply Boid.pointImpulse_eval_near
  have hdiff : Vec.subtract ⟨22, 0⟩ (stdBoid 0 0 1 0).position = ⟨22, 0⟩ := by
    rw [stdBoid_position]
    simp only [Vec.subtract, Vec.mk.injEq]
    norm_num
  rw [hdiff, Vec.length_eval (show (0:ℝ) ≤ 22 by norm_num) (by norm_num), stdBoid_radius]
  norm_num

theorem singleton_no_neighbor (b : Boid) :
    ∀ o ∈ [b], o ≠ b → ¬ b.canSee o.position.getX o.position.getY := by
  intro o ho hne
  rw [List.mem_singleton] at ho
  exact absurd ho hne

theorem c2_wallAvoidance :
    (stdBoid 50 500 (-2) 0).wallAvoidance 1000 1000 = some ⟨2, 0⟩ := by
  simp only [Boid.wallAvoidance, stdBoid_position, Vec.getX, Vec.getY]
  rw [if_pos (Or.inl c2_sees_wall),
    show (⟨1000 / 2, 1000 / 2⟩ : Vec) = ⟨500, 500⟩ from by norm_num,
    c2_pointImpulse_center]

theorem c2_applyRules_velocity :
    (Boid.applyRules (stdBoid 50 500 (-2) 0) [stdBoid 50 500 (-2) 0] 1000 1000).velocity =
      ⟨1.4, 0⟩ := by
  have hnb := singleton_no_neighbor (stdBoid 50 500 (-2) 0)
  have hlim : (⟨(-2 : ℝ), 0⟩ : Vec).limit 5 = ⟨-2, 0⟩ :=
    Vec.limit_of_le (by
      rw [Vec.length_eval (show (0:ℝ) ≤ 2 by norm_num) (by norm_num)]
      norm_num)
  simp only [Boid.applyRules, Boid.separation_of_none _ _ hnb,
    Boid.alignment_of_none _ _ hnb, Boid.cohesion_of_none _ _ hnb, c2_wallAvoidance,
    Boid.applyImpulse_zero, Boid.applyImpulse_velocity, stdBoid_velocity,
    stdBoid_maxImpulse, stdBoid_weights, hlim]
  rw [show Vec.add ⟨(-2 : ℝ), 0⟩ (Vec.scale ⟨2, 0⟩ (1.7 : ℝ)) = ⟨1.4, 0⟩ from by
    simp only [Vec.add, Vec.scale, Vec.mk.injEq]
    norm_num]
  exact Vec.limit_of_le (by
    rw [Vec.length_eval (show (0:ℝ) ≤ 1.4 by norm_num) (by norm_num)]
    norm_num)

theorem c2_decidePhase_singleton :
    Flock.decidePhase 1000 1000 [stdBoid 50 500 (-2) 0] =
      [Boid.applyRules (stdBoid 50 500 (-2) 0) [stdBoid 50 500 (-2) 0] 1000 1000] := by
  simp [Flock.decidePhase, Flock.decideStep,
    show List.range 1 = [0] from rfl]

theorem c4_neighbor_ne : stdBoid 10 0 0 0 ≠ stdBoid 0 0 1 0 := by
  intro hEq
  have h0 := congrArg (fun b => b.position.v0) hEq
  norm_num [stdBoid_position] at h0

theorem c4_neighbor_visible :
    (stdBoid 0 0 1 0).canSee (stdBoid 10 0 0 0).position.getX
      (stdBoid 10 0 0 0).position.getY := by
  show (stdBoid 0 0 1 0).canSee 10 0
  exact stdBoid_east_sees (by norm_num) (by norm_num)

theorem c4_separation_eval :
    Boid.separation (stdBoid 0 0 1 0) [stdBoid 0 0 1 0, stdBoid 10 0 0 0] = Vec.zero := by
  have hself : ¬ (stdBoid 0 0 1 0 ≠ stdBoid 0 0 1 0 ∧
      (stdBoid 0 0 1 0).canSee (stdBoid 0 0 1 0).position.getX
        (stdBoid 0 0 1 0).position.getY) := fun hcond => hcond.1 rfl
  have hnan : ¬ ((stdBoid 0 0 1 0).size + (stdBoid 10 0 0 0).size +
        25 * (stdBoid 0 0 1 0).separationCoeff > 0 ∧
      JsNum.lt ((stdBoid 0 0 1 0).size + (stdBoid 10 0 0 0).size +
        25 * (stdBoid 0 0 1 0).separationCoeff)
        ((stdBoid 0 0 1 0).distanceToJs (stdBoid 10 0 0 0).position.xProperty
          (stdBoid 10 0 0 0).position.yProperty)) := fun hcond => hcond.2
  have hpos : stdBoid 10 0 0 0 ≠ stdBoid 0 0 1 0 ∧
      (stdBoid 0 0 1 0).canSee (stdBoid 10 0 0 0).position.getX
        (stdBoid 10 0 0 0).position.getY := ⟨c4_neighbor_ne, c4_neighbor_visible⟩
  simp only [Boid.separation, List.foldl_cons, List.foldl_nil]
  rw [if_neg hself, if_pos hpos, if_neg hnan]
  exact Vec.zero_limit _

theorem self_cond_false (b : Boid) :
    ¬ (b ≠ b ∧ b.canSee b.position.getX b.position.getY) := fun h => h.1 rfl

theorem c5_n20_ne : stdBoid 20 0 0 0 ≠ stdBoid 0 0 1 0 := by
  intro hEq
  have h0 := congrArg (fun b => b.position.v0) hEq
  norm_num [stdBoid_position] at h0

theorem c5_n24_ne : stdBoid 24 0 0 0 ≠ stdBoid 0 0 1 0 := by
  intro hEq
  have h0 := congrArg (fun b => b.position.v0) hEq
  norm_num [stdBoid_position] at h0

theorem c5_n20_visible :
    (stdBoid 0 0 1 0).canSee (stdBoid 20 0 0 0).position.getX
      (stdBoid 20 0 0 0).position.getY := by
  show (stdBoid 0 0 1 0).canSee 20 0
  exact stdBoid_east_sees (by norm_num) (by norm_num)

theorem c5_n24_visible :
    (stdBoid 0 0 1 0).canSee (stdBoid 24 0 0 0).position.getX
      (stdBoid 24 0 0 0).position.getY := by
  show (stdBoid 0 0 1 0).canSee 24 0
  exact stdBoid_east_sees (by norm_num) (by norm_num)

theorem c5_cohesion_eval :
    Boid.cohesion (stdBoid 0 0 1 0)
      [stdBoid 0 0 1 0, stdBoid 20 0 0 0, stdBoid 24 0 0 0] = ⟨1, 0⟩ := by
  have hpos20 : stdBoid 20 0 0 0 ≠ stdBoid 0 0 1 0 ∧
      (stdBoid 0 0 1 0).canSee (stdBoid 20 0 0 0).position.getX
        (stdBoid 20 0 0 0).position.getY := ⟨c5_n20_ne, c5_n20_visible⟩
  have hpos24 : stdBoid 24 0 0 0 ≠ stdBoid 0 0 1 0 ∧
      (stdBoid 0 0 1 0).canSee (stdBoid 24 0 0 0).position.getX
        (stdBoid 24 0 0 0).position.getY := ⟨c5_n24_ne, c5_n24_visible⟩
  simp only [Boid.cohesion, List.foldl_cons, List.foldl_nil]
  rw [if_neg (self_cond_false (stdBoid 0 0 1 0)), if_pos hpos20, if_pos hpos24]
  show Boid.pointImpulse (stdBoid 0 0 1 0)
      (Vec.add (Vec.add Vec.zero (stdBoid 20 0 0 0).position)
        (stdBoid 24 0 0 0).position) = ⟨1, 0⟩
  rw [show Vec.add (Vec.add Vec.zero (stdBoid 20 0 0 0).position)
      (stdBoid 24 0 0 0).position = (⟨44, 0⟩ : Vec) from by
    rw [stdBoid_position, stdBoid_position]
    simp only [Vec.add, Vec.zero, Vec.mk.injEq]
    norm_num]
  exact c5_pointImpulse_sum

theorem c5_cohesionSpec_eval :
    Boid.cohesionSpec (stdBoid 0 0 1 0)
      [stdBoid 0 0 1 0, stdBoid 20 0 0 0, stdBoid 24 0 0 0] = Vec.zero := by
  have hpos20 : stdBoid 20 0 0 0 ≠ stdBoid 0 0 1 0 ∧
      (stdBoid 0 0 1 0).canSee (stdBoid 20 0 0 0).position.getX
        (stdBoid 20 0 0 0).position.getY := ⟨c5_n20_ne, c5_n20_visible⟩
  have hpos24 : stdBoid 24 0 0 0 ≠ stdBoid 0 0 1 0 ∧
      (stdBoid 0 0 1 0).canSee (stdBoid 24 0 0 0).position.getX
        (stdBoid 24 0 0 0).position.getY := ⟨c5_n24_ne, c5_n24_visible⟩
  simp only [Boid.cohesionSpec, List.foldl_cons, List.foldl_nil]
  rw [if_neg (self_cond_false (stdBoid 0 0 1 0)), if_pos hpos20, if_pos hpos24]
  show Boid.pointImpulse (stdBoid 0 0 1 0)
      ((Vec.add (Vec.add Vec.zero (stdBoid 20 0 0 0).position)
        (stdBoid 24 0 0 0).position).scale (1 / ((0 + 1 + 1 : ℕ) : ℝ))) = Vec.zero
  rw [show (Vec.add (Vec.add Vec.zero (stdBoid 20 0 0 0).position)
      (stdBoid 24 0 0 0).position).scale (1 / ((0 + 1 + 1 : ℕ) : ℝ)) = (⟨22, 0⟩ : Vec) from by
    rw [stdBoid_position, stdBoid_position]
    simp only [Vec.add, Vec.zero, Vec.scale, Vec.mk.injEq]
    norm_num]
  exact c5_pointImpulse_mean

theorem atan2_mem_Ioc (y x : ℝ) : atan2 y x ∈ Set.Ioc (-π) π := Complex.arg_mem_Ioc _

theorem Boid.getDirection_mem_Ioc (b : Boid) : b.getDirection ∈ Set.Ioc (-π) π := by
  rw [Boid.getDirection_eq]
  exact atan2_mem_Ioc _ _

/-- C1: every `applyImpulse` clamps the agent's speed to `maxImpulse`
(for a nonnegative `maxImpulse`), `move` does not change the velocity, and
therefore after a completed `moveFlock` tick every agent of the flock has
velocity magnitude at most its `maxImpulse`. -/
theorem c1_speed_bound :
    (∀ (b : Boid) (imp : Vec) (w : ℝ), 0 ≤ b.maxImpulse →
        ((b.applyImpulse imp w).velocity).length ≤ b.maxImpulse) ∧
    (∀ b : Boid, (Boid.move b).velocity = b.velocity) ∧
    (∀ (boids : List Boid) (w h : ℝ), (∀ b ∈ boids, 0 ≤ b.maxImpulse) →
        ∀ b ∈ Flock.moveFlock boids w h, b.velocity.length ≤ b.maxImpulse) := by
  refine ⟨fun b imp w hm => Boid.applyImpulse_length_le b imp w hm,
    fun b => rfl, ?_⟩
  intro boids w h hS b hb
  rcases List.mem_map.1 hb with ⟨c, hc, rfl⟩
  rw [Boid.move_velocity, Boid.move_maxImpulse]
  exact Flock.decidePhase_bound w h boids hS c hc

/-- Witness for C1 at a concrete one-boid flock with `maxImpulse = 5`. -/
theorem c1_speed_bound_witness :
    (∀ b ∈ [stdBoid 3 4 1 2], 0 ≤ b.maxImpulse) ∧
    (∀ b ∈ Flock.moveFlock [stdBoid 3 4 1 2] 1000 1000,
      b.velocity.length ≤ b.maxImpulse) := by
  have hS : ∀ b ∈ [stdBoid 3 4 1 2], 0 ≤ b.maxImpulse := by
    intro b hb
    rw [List.mem_singleton] at hb
    subst hb
    rw [stdBoid_maxImpulse]
    norm_num
  exact ⟨hS, c1_speed_bound.2.2 [stdBoid 3 4 1 2] 1000 1000 hS⟩

/-- C2 counterexample: the decide loop of `Flock.moveFlock` does mutate an
agent's velocity before any agent moves.  For the single boid at (50, 500)
heading into the left wall with velocity (-2, 0), the decide phase already
changes its velocity (to (1.4, 0)), so the flock's velocities after the
decide phase differ from the start-of-tick velocities. -/
theorem c2_decide_phase_mutates_velocity :
    (Flock.decidePhase 1000 1000 [stdBoid 50 500 (-2) 0]).map Boid.velocity ≠
      [stdBoid 50 500 (-2) 0].map Boid.velocity := by
  rw [c2_decidePhase_singleton]
  intro hEq
  rw [List.map_cons, List.map_nil, List.map_cons, List.map_nil,
    c2_applyRules_velocity, stdBoid_velocity] at hEq
  norm_num [List.cons.injEq, Vec.mk.injEq] at hEq

/-- C2 amended: in every tick every agent's `applyRules` completes before any
agent's `move`, and no agent's position is mutated during the decide phase;
velocities, however, are written in place as each `applyRules` runs. -/
theorem c2_decide_then_act :
    ∀ (boids : List Boid) (w h : ℝ),
      (Flock.decidePhase w h boids).map Boid.position = boids.map Boid.position ∧
      Flock.moveFlock boids w h = (Flock.decidePhase w h boids).map Boid.move :=
  fun boids w h => ⟨Flock.decidePhase_map_position w h boids, rfl⟩

/-- C3: one tick of `Flock.moveFlock` leaves the number of agents in the
flock unchanged. -/
theorem c3_population_constant :
    ∀ (boids : List Boid) (w h : ℝ),
      (Flock.moveFlock boids w h).length = boids.length := by
  intro boids w h
  unfold Flock.moveFlock
  rw [List.length_map, Flock.decidePhase_length]

/-- C4: evaluation of the separation rule at its failing input.  The
neighbor at (10, 0) is visible and strictly closer (distance 10) than the
claimed desired separation distance `size + size + separationCoeff = 40`,
yet `Boid.separation` returns the zero vector: the distance it compares is
the `NaN` of `boids[i].position.x`, and the guard `sep < distance` is also
inverted relative to the specification. -/
theorem c4_separation_zero_at_close_neighbor :
    Boid.separation (stdBoid 0 0 1 0) [stdBoid 0 0 1 0, stdBoid 10 0 0 0] = Vec.zero ∧
    (stdBoid 0 0 1 0).canSee (stdBoid 10 0 0 0).position.getX
      (stdBoid 10 0 0 0).position.getY ∧
    ((stdBoid 0 0 1 0).position.subtract (stdBoid 10 0 0 0).position).length <
      (stdBoid 0 0 1 0).size + (stdBoid 10 0 0 0).size +
        (stdBoid 0 0 1 0).separationCoeff := by
  refine ⟨c4_separation_eval, c4_neighbor_visible, ?_⟩
  rw [stdBoid_position, stdBoid_position,
    show Vec.subtract ⟨0, 0⟩ ⟨10, 0⟩ = (⟨-10, 0⟩ : Vec) from by
      simp only [Vec.subtract, Vec.mk.injEq]
      norm_num,
    Vec.length_eval (show (0:ℝ) ≤ 10 by norm_num) (by norm_num),
    stdBoid_size, stdBoid_size, stdBoid_separationCoeff]
  norm_num

/-- C5: evaluation of the cohesion rule at its failing input.  With two
visible neighbors at (20, 0) and (24, 0), the code steers toward the raw
coordinate sum (44, 0) and returns the impulse (1, 0) (the result of
`sum.scale(1 / count)` is discarded), while the specification's mean-target
cohesion (`Boid.cohesionSpec`) gives the zero impulse because the average
(22, 0) lies within `visionRadius / 2` of the agent. -/
theorem c5_cohesion_targets_sum_not_mean :
    Boid.cohesion (stdBoid 0 0 1 0)
      [stdBoid 0 0 1 0, stdBoid 20 0 0 0, stdBoid 24 0 0 0] = ⟨1, 0⟩ ∧
    Boid.cohesionSpec (stdBoid 0 0 1 0)
      [stdBoid 0 0 1 0, stdBoid 20 0 0 0, stdBoid 24 0 0 0] = Vec.zero :=
  ⟨c5_cohesion_eval, c5_cohesionSpec_eval⟩

/-- C6 counterexample: a coincident target point (distance exactly 0) is
not visible to a west-heading agent.  The bearing degenerates to
`atan2(0,0) = 0`, the heading is `pi`, and the angular difference `pi`
exceeds the field of view `pi - pi/4`, so `canSee` returns false. -/
theorem c6_coincident_point_not_visible :
    ¬ (stdBoid 0 0 (-1) 0).canSee 0 0 := by
  intro hc
  have h2 := ((Boid.canSee_iff _ 0 0).1 hc).2
  rw [stdBoid_angleTo, stdBoid_getDirection, show (0:ℝ) - 0 = 0 by norm_num,
    atan2_zero_of_nonneg le_rfl, atan2_zero_of_neg (show (-1:ℝ) < 0 by norm_num)] at h2
  rw [Boid.abs_distanceBetweenAngles_zero ⟨by linarith [Real.pi_pos], le_rfl⟩,
    abs_of_pos Real.pi_pos, stdBoid_angle] at h2
  linarith [Real.pi_pos]

/-- C6 amended: for every agent whose vision radius is nonnegative, `canSee`
of the agent's own position never faults and returns true exactly when the
magnitude of the agent's heading (the bearing degenerates to
`atan2(0,0) = 0`) is at most the field of view `pi - visionAngle`; a
sufficiently rear-pointing heading makes the coincident point invisible. -/
theorem c6_canSee_self_iff (b : Boid) (hrad : 0 ≤ b.vision.radius) :
    b.canSee b.position.getX b.position.getY ↔
      |b.getDirection| ≤ π - b.vision.angle := by
  rw [Boid.canSee_iff, Boid.distanceTo_self]
  have htarget : b.angleTo b.position.getX b.position.getY = 0 := by
    unfold Boid.angleTo
    rw [sub_self, sub_self]
    exact atan2_zero_of_nonneg le_rfl
  rw [htarget, Boid.abs_distanceBetweenAngles_zero (Boid.getDirection_mem_Ioc b)]
  exact and_iff_right hrad

/-- Witness for the amended C6 at a concrete east-heading agent. -/
theorem c6_canSee_self_iff_witness :
    (0:ℝ) ≤ (stdBoid 7 3 1 0).vision.radius ∧
    ((stdBoid 7 3 1 0).canSee (stdBoid 7 3 1 0).position.getX
        (stdBoid 7 3 1 0).position.getY ↔
      |(stdBoid 7 3 1 0).getDirection| ≤ π - (stdBoid 7 3 1 0).vision.angle) :=
  ⟨by rw [stdBoid_radius]; norm_num,
    c6_canSee_self_iff (stdBoid 7 3 1 0) (by rw [stdBoid_radius]; norm_num)⟩

/-- C7: normalize is total; on the zero vector the division-by-zero branch
is guarded and the zero vector is returned, and on every vector the call
produces a defined result. -/
theorem c7_normalize_total :
    Vec.normalize Vec.zero = Vec.zero ∧ ∀ v : Vec, ∃ w : Vec, v.normalize = w :=
  ⟨Vec.normalize_zero, fun v => ⟨v.normalize, rfl⟩⟩

/-- C8: an agent that sees no neighbor and no boundary gets the zero vector
from separation, alignment and cohesion, the avoidance rule is not
triggered, and `applyRules` rescales its velocity by a nonnegative factor
(the direction is unchanged, up to the `maxImpulse` clamp). -/
theorem c8_no_stimulus_keeps_direction (b : Boid) (boids : List Boid) (w h : ℝ)
    (hnb : ∀ o ∈ boids, o ≠ b → ¬ b.canSee o.position.getX o.position.getY)
    (hwall : b.wallAvoidance w h = none) (hm : 0 ≤ b.maxImpulse) :
    b.separation boids = Vec.zero ∧ b.alignment boids = Vec.zero ∧
    b.cohesion boids = Vec.zero ∧ b.wallAvoidance w h = none ∧
    ∃ c : ℝ, 0 ≤ c ∧ (b.applyRules boids w h).velocity = b.velocity.scale c := by
  refine ⟨Boid.separation_of_none b boids hnb, Boid.alignment_of_none b boids hnb,
    Boid.cohesion_of_none b boids hnb, hwall, ?_⟩
  rcases Vec.limit_eq_scale (v := b.velocity) hm with ⟨c, hc, hEq⟩
  exact ⟨c, hc, by rw [Boid.applyRules_no_stimulus b boids w h hnb hwall hm, hEq]⟩

/-- Witness for C8: a lone boid in the middle of a 1000 by 1000 canvas. -/
theorem c8_no_stimulus_keeps_direction_witness :
    ((0:ℝ) ≤ (stdBoid 500 500 1 0).maxImpulse) ∧
    ((stdBoid 500 500 1 0).wallAvoidance 1000 1000 = none) ∧
    (Boid.separation (stdBoid 500 500 1 0) [stdBoid 500 500 1 0] = Vec.zero ∧
      Boid.alignment (stdBoid 500 500 1 0) [stdBoid 500 500 1 0] = Vec.zero ∧
      Boid.cohesion (stdBoid 500 500 1 0) [stdBoid 500 500 1 0] = Vec.zero ∧
      (stdBoid 500 500 1 0).wallAvoidance 1000 1000 = none ∧
      ∃ c : ℝ, 0 ≤ c ∧
        (Boid.applyRules (stdBoid 500 500 1 0) [stdBoid 500 500 1 0]
            1000 1000).velocity = ((stdBoid 500 500 1 0).velocity).scale c) := by
  have hm : (0:ℝ) ≤ (stdBoid 500 500 1 0).maxImpulse := by
    rw [stdBoid_maxImpulse]
    norm_num
  exact ⟨hm, lonely_no_wall,
    c8_no_stimulus_keeps_direction (stdBoid 500 500 1 0) [stdBoid 500 500 1 0]
      1000 1000 (singleton_no_neighbor _) lonely_no_wall hm⟩

/-- C9: at the random draws r3 = r4 = 0.5 the boid created by
`Flock.addRandomBoid` receives the exact zero vector as its initial
velocity (magnitude 0), contradicting the never-exactly-zero requirement. -/
theorem c9_zero_velocity_draw :
    (Flock.randomBoid 1000 1000 (3/10) (2/5) (1/2) (1/2)).velocity = Vec.zero ∧
    ((Flock.randomBoid 1000 1000 (3/10) (2/5) (1/2) (1/2)).velocity).length = 0 := by
  have hv : (Flock.randomBoid 1000 1000 (3/10) (2/5) (1/2) (1/2)).velocity = Vec.zero := by
    show (⟨(1/2 : ℝ) * 4 - 2, (1/2 : ℝ) * 4 - 2⟩ : Vec) = Vec.zero
    simp only [Vec.zero, Vec.mk.injEq]
    norm_num
  exact ⟨hv, by rw [hv, Vec.length_zero]⟩

/-- C10: an agent whose velocity is exactly the zero vector has
`getDirection = 0` (the heading `atan2(0,0)` is 0, along the positive
x-axis), so vision and the tick stay well defined for a stationary agent. -/
theorem c10_stationary_direction_zero :
    ∀ b : Boid, b.velocity = Vec.zero → b.getDirection = 0 := by
  intro b hb
  rw [Boid.getDirection_eq, hb]
  show atan2 0 0 = 0
  exact atan2_zero_of_nonneg le_rfl

/-- Witness for C10 at a concrete stationary agent. -/
theorem c10_stationary_direction_zero_witness :
    (stdBoid 5 5 0 0).velocity = Vec.zero ∧ (stdBoid 5 5 0 0).getDirection = 0 := by
  have hv : (stdBoid 5 5 0 0).velocity = Vec.zero := by
    rw [stdBoid_velocity]
    rfl
  exact ⟨hv, c10_stationary_direction_zero (stdBoid 5 5 0 0) hv⟩
